import Mathlib

/-!
Verification of the tile-grid planner / tile fetcher / panorama assembler
pipeline of `src/pano.py` (yandex-pano-downloader).

The embedding models the `make_pano` coroutine as a pure function.  The
injected environment is a single function `fetch : String → Option Bitmap`
giving, for each tile URL, the outcome of `fetch_tile` (the GET, status
check and `Image.open` decode): `some bitmap` on success, `none` when any
of `aiohttp.ClientError` / `IOError` was caught and `None` returned.
`asyncio.gather` preserves the order in which the tasks were appended, so
the result list is the pointwise image of the URL list under `fetch`.

Pixel buffers (`PIL.Image`) are modelled as total pixel functions together
with their dimensions; `Image.paste` writes the tile box into the canvas,
silently clipped to the canvas bounds, which is exactly PIL's behaviour.
`Image.new("RGB", (w, h))` with no colour argument fills with 0, i.e. RGB
black, and raises `ValueError` when a dimension is negative.  Integer
arithmetic follows Python: `math.ceil(a / b)` is exact ceiling division
(raising `ZeroDivisionError` when `b = 0`) and `int(a / 2)` truncates
toward zero.
-/

namespace YandexPano

/-- An RGB pixel value. -/
structure RGB where
  r : Nat
  g : Nat
  b : Nat
deriving DecidableEq, Repr

/-- The fill `Image.new` uses when no colour argument is given: 0, black. -/
def RGB.black : RGB := ⟨0, 0, 0⟩

/-- A pixel buffer (a `PIL.Image`): dimensions plus a total pixel map.
Only the values at `0 ≤ X < width`, `0 ≤ Y < height` are meaningful. -/
structure Bitmap where
  width : Int
  height : Int
  pix : Int → Int → RGB

/-- Extensional equality of pixel buffers: same dimensions, same pixels. -/
def BitmapEq (a b : Bitmap) : Prop :=
  a.width = b.width ∧ a.height = b.height ∧ ∀ X Y : Int, a.pix X Y = b.pix X Y

/-- Python `math.ceil(a / b)` for `b ≠ 0`: exact ceiling division,
written as the negated floor division of the negation. -/
def pyCeil (a b : Int) : Int := -(Int.fdiv (-a) b)

/-- Python `int(a / 2)`: truncation toward zero. -/
def pyHalf (a : Int) : Int := Int.tdiv a 2

/-- Errors the `make_pano` call can raise.  `invalidDimension` is the
planner error named by the design document; the implementation translated
below never constructs it (there is no dimension validation in the code),
it is present only so that its absence can be stated.
`zeroDivisionError` is Python's `ZeroDivisionError` from `math.ceil(a / b)`
with a zero divisor; `valueError` is PIL's `ValueError` from `Image.new`
with a negative dimension. -/
inductive PanoError where
  | invalidDimension
  | zeroDivisionError
  | valueError
deriving DecidableEq, Repr

/-- The tile request URL, line 55 of `src/pano.py`:
`https://pano.maps.yandex.net/{image_id}/{zoom}.{x}.{y}`. -/
def tile_url (image_id : String) (zoom : Int) (x y : Nat) : String :=
  s!"https://pano.maps.yandex.net/{image_id}/{zoom}.{x}.{y}"

/-- The grid coordinates in the order the two nested loops
`for x in range(xr): for y in range(yr):` enumerate them. -/
def coordList (xr yr : Nat) : List (Nat × Nat) :=
  (List.range xr).flatMap (fun x => (List.range yr).map (fun y => (x, y)))

/-- `canvas.paste(tile, (ox, oy))`: every pixel that lies both inside the
canvas bounds and inside the tile box receives the tile pixel; everything
else (including the parts of the box that fall outside the canvas, which
PIL clips silently) is untouched.  The canvas dimensions never change. -/
def paste (c t : Bitmap) (ox oy : Int) : Bitmap :=
  { width := c.width, height := c.height,
    pix := fun X Y =>
      if 0 ≤ X ∧ X < c.width ∧ 0 ≤ Y ∧ Y < c.height ∧
         ox ≤ X ∧ X < ox + t.width ∧ oy ≤ Y ∧ Y < oy + t.height
      then t.pix (X - ox) (Y - oy)
      else c.pix X Y }

/-- One iteration of the assembly loop (lines 59–66 of `src/pano.py`): the
state is the canvas, the progress-bar value and the list of values passed
to `bar.update` so far.  `if tile:` pastes and updates only when the fetch
returned an image; a `None` outcome leaves everything unchanged. -/
def assembleStep (tw th : Int) (acc : Bitmap × Nat × List Nat)
    (it : (Nat × Nat) × Option Bitmap) : Bitmap × Nat × List Nat :=
  match it.2 with
  | none => acc
  | some t =>
      ⟨paste acc.1 t ((it.1.1 : Int) * tw) ((it.1.2 : Int) * th),
       acc.2.1 + 1, acc.2.2 ++ [acc.2.1 + 1]⟩

/-- The whole assembly loop: fold `assembleStep` over the coordinates
paired with the gathered results, starting from the fresh canvas, a bar
value of 0 and no updates emitted. -/
def assembleRun (tw th : Int) (c0 : Bitmap)
    (items : List ((Nat × Nat) × Option Bitmap)) : Bitmap × Nat × List Nat :=
  items.foldl (assembleStep tw th) (c0, 0, [])

/-- Lines 42–43 of `src/pano.py`: `pano_height` is replaced by
`int(pano_width / 2)` exactly when `auto_height` is set and the supplied
height differs from it. -/
def effectiveHeight (pano_width pano_height : Int) (auto_height : Bool) : Int :=
  if auto_height ∧ pano_height ≠ pyHalf pano_width then pyHalf pano_width
  else pano_height

/-- `Image.new("RGB", (w, h))`: a buffer of the given dimensions, every
pixel the default fill 0 = black. -/
def newCanvas (w h : Int) : Bitmap := ⟨w, h, fun _ _ => RGB.black⟩

/-- Everything observable about one successful `make_pano` run. -/
structure Run where
  x_range : Int
  y_range : Int
  total_tiles : Int
  coords : List (Nat × Nat)
  urls : List String
  results : List (Option Bitmap)
  canvas : Bitmap
  bar_updates : List Nat

/-- `make_pano` (lines 37–68 of `src/pano.py`).  In source order:
`x_range = math.ceil(pano_width / tile_width)` (raises `ZeroDivisionError`
when `tile_width == 0`), `y_range = math.ceil(pano_height / tile_height)`
(likewise for `tile_height`) — both from the *supplied* `pano_height`;
`total_tiles = x_range * y_range`; then the auto-height adjustment; then
`Image.new("RGB", (pano_width, pano_height))` (raises `ValueError` on a
negative dimension, fills with black); the tasks are created x-major and
gathered in that order; the assembly loop pastes each non-`None` tile at
`(x * tile_width, y * tile_height)` and advances the progress bar. -/
def make_pano (fetch : String → Option Bitmap) (image_id : String)
    (pano_width pano_height tile_width tile_height : Int)
    (auto_height : Bool) (zoom : Int) : Except PanoError Run :=
  if tile_width = 0 then .error .zeroDivisionError else
  let x_range := pyCeil pano_width tile_width
  if tile_height = 0 then .error .zeroDivisionError else
  let y_range := pyCeil pano_height tile_height
  let total_tiles := x_range * y_range
  let ph := effectiveHeight pano_width pano_height auto_height
  if pano_width < 0 ∨ ph < 0 then .error .valueError else
  let c0 : Bitmap := newCanvas pano_width ph
  let coords := coordList x_range.toNat y_range.toNat
  let urls := coords.map (fun c => tile_url image_id zoom c.1 c.2)
  let results := urls.map fetch
  let a := assembleRun tile_width tile_height c0 (coords.zip results)
  .ok { x_range := x_range, y_range := y_range, total_tiles := total_tiles,
        coords := coords, urls := urls, results := results,
        canvas := a.1, bar_updates := a.2.2 }

/-- The planned coordinate list of a run, as a function of the four
dimension inputs (abbreviation for statements). -/
def gridCoords (pw ph tw th : Int) : List (Nat × Nat) :=
  coordList (pyCeil pw tw).toNat (pyCeil ph th).toNat

/-- The planned URL list of a run (abbreviation for statements). -/
def gridUrls (iid : String) (z : Int) (pw ph tw th : Int) : List String :=
  (gridCoords pw ph tw th).map (fun c => tile_url iid z c.1 c.2)

/-- The items the assembly loop walks: coordinates zipped with results. -/
def gridItems (fetch : String → Option Bitmap) (iid : String) (z : Int)
    (pw ph tw th : Int) : List ((Nat × Nat) × Option Bitmap) :=
  (gridCoords pw ph tw th).zip ((gridUrls iid z pw ph tw th).map fetch)

/-- The `y_range` of a run, `none` when the call raised. -/
def yRangeOf (e : Except PanoError Run) : Option Int :=
  e.toOption.map Run.y_range

/-- The `total_tiles` of a run, `none` when the call raised. -/
def totalTilesOf (e : Except PanoError Run) : Option Int :=
  e.toOption.map Run.total_tiles

/-- The progress-bar update trace of a run, `none` when the call raised. -/
def barOf (e : Except PanoError Run) : Option (List Nat) :=
  e.toOption.map Run.bar_updates

/-- A fetch environment in which every tile request fails. -/
def fNone : String → Option Bitmap := fun _ => none

/-- A fetch environment in which every tile request succeeds with a
uniform 256 by 256 grey tile. -/
def fGrey : String → Option Bitmap :=
  fun _ => some ⟨256, 256, fun _ _ => ⟨7, 7, 7⟩⟩

/-- Whether an item's pasted box covers the point `(X, Y)`: `false` for a
failed outcome; for a successful outcome, whether the point lies inside
the tile's destination rectangle. -/
def inBoxB (tw th : Int) (it : (Nat × Nat) × Option Bitmap) (X Y : Int) : Bool :=
  match it.2 with
  | none => false
  | some t =>
      decide ((it.1.1 : Int) * tw ≤ X) &&
      decide (X < (it.1.1 : Int) * tw + t.width) &&
      decide ((it.1.2 : Int) * th ≤ Y) &&
      decide (Y < (it.1.2 : Int) * th + t.height)

/-- The last item in paste order whose successful tile covers `(X, Y)`,
together with its bitmap: the tile whose pixel the point finally shows. -/
def lastHit (tw th X Y : Int)
    (items : List ((Nat × Nat) × Option Bitmap)) :
    Option ((Nat × Nat) × Bitmap) :=
  items.foldl
    (fun acc it =>
      if inBoxB tw th it X Y then it.2.map (fun t => (it.1, t)) else acc)
    none

/-- Outcome equality: two failures, or two successes carrying
extensionally equal bitmaps. -/
def OutcomeEq : Option Bitmap → Option Bitmap → Prop
  | none, none => True
  | some a, some b => BitmapEq a b
  | _, _ => False

/-- Item equality: same coordinate, equal outcome. -/
def ItemEq (a b : (Nat × Nat) × Option Bitmap) : Prop :=
  a.1 = b.1 ∧ OutcomeEq a.2 b.2

/-- A small concrete outcome set, one success and one failure, used to
instantiate the assembly theorems at a closed input. -/
def demoItems : List ((Nat × Nat) × Option Bitmap) :=
  [((0, 0), some ⟨2, 2, fun _ _ => ⟨9, 9, 9⟩⟩), ((1, 0), none)]

theorem pyCeil_pos {a b : Int} (ha : 0 < a) (hb : 0 < b) : 0 < pyCeil a b := by
  unfold pyCeil
  rw [Int.fdiv_eq_ediv _ hb.le]
  have h := Int.ediv_neg' (a := -a) (b := b) (by omega) hb
  omega

theorem effectiveHeight_nonneg {pw ph : Int} (hpw : 0 ≤ pw) (hph : 0 ≤ ph)
    (ah : Bool) : 0 ≤ effectiveHeight pw ph ah := by
  unfold effectiveHeight
  split
  · exact Int.tdiv_nonneg hpw (by omega)
  · exact hph

theorem assembleStep_width (tw th : Int) (acc : Bitmap × Nat × List Nat)
    (it : (Nat × Nat) × Option Bitmap) :
    ((assembleStep tw th acc it).1).width = acc.1.width := by
  cases h : it.2 <;> simp [assembleStep, h, paste]

theorem assembleStep_height (tw th : Int) (acc : Bitmap × Nat × List Nat)
    (it : (Nat × Nat) × Option Bitmap) :
    ((assembleStep tw th acc it).1).height = acc.1.height := by
  cases h : it.2 <;> simp [assembleStep, h, paste]

theorem assembleRun_foldl_width (tw th : Int)
    (items : List ((Nat × Nat) × Option Bitmap)) :
    ∀ acc : Bitmap × Nat × List Nat,
      ((items.foldl (assembleStep tw th) acc).1).width = acc.1.width := by
  induction items with
  | nil => intro acc; rfl
  | cons it rest ih =>
      intro acc
      rw [List.foldl_cons, ih, assembleStep_width]

theorem assembleRun_foldl_height (tw th : Int)
    (items : List ((Nat × Nat) × Option Bitmap)) :
    ∀ acc : Bitmap × Nat × List Nat,
      ((items.foldl (assembleStep tw th) acc).1).height = acc.1.height := by
  induction items with
  | nil => intro acc; rfl
  | cons it rest ih =>
      intro acc
      rw [List.foldl_cons, ih, assembleStep_height]

/-- Pasting never changes the canvas dimensions: the assembled canvas has
the dimensions of the freshly allocated one. -/
theorem assembleRun_width (tw th : Int) (c0 : Bitmap)
    (items : List ((Nat × Nat) × Option Bitmap)) :
    ((assembleRun tw th c0 items).1).width = c0.width :=
  assembleRun_foldl_width tw th items (c0, 0, [])

theorem assembleRun_height (tw th : Int) (c0 : Bitmap)
    (items : List ((Nat × Nat) × Option Bitmap)) :
    ((assembleRun tw th c0 items).1).height = c0.height :=
  assembleRun_foldl_height tw th items (c0, 0, [])

/-- Shape of every non-raising `make_pano` call: with nonzero tile
dimensions and PIL-acceptable canvas dimensions the call returns exactly
the run whose fields are the grid formulas. -/
theorem make_pano_ok (fetch : String → Option Bitmap) (image_id : String)
    (pw ph tw th : Int) (ah : Bool) (z : Int)
    (htw : tw ≠ 0) (hth : th ≠ 0) (hpw : 0 ≤ pw)
    (heff : 0 ≤ effectiveHeight pw ph ah) :
    make_pano fetch image_id pw ph tw th ah z =
      Except.ok
        { x_range := pyCeil pw tw, y_range := pyCeil ph th,
          total_tiles := pyCeil pw tw * pyCeil ph th,
          coords := gridCoords pw ph tw th,
          urls := gridUrls image_id z pw ph tw th,
          results := (gridUrls image_id z pw ph tw th).map fetch,
          canvas := (assembleRun tw th (newCanvas pw (effectiveHeight pw ph ah))
            (gridItems fetch image_id z pw ph tw th)).1,
          bar_updates := (assembleRun tw th (newCanvas pw (effectiveHeight pw ph ah))
            (gridItems fetch image_id z pw ph tw th)).2.2 } := by
  have h3 : ¬(pw < 0 ∨ effectiveHeight pw ph ah < 0) := by omega
  simp only [make_pano, if_neg htw, if_neg hth, if_neg h3,
    gridCoords, gridUrls, gridItems]

/-- C1 (counterexample): with `autoHeight = true`, `panoWidth = 2048`,
`panoHeight = 100`, tiles 256 by 256, the code computes `y_range = 1` from
the supplied height, while the claimed value
`ceil(effectiveHeight / tileHeight) = ceil(1024 / 256) = 4`. -/
theorem rows_from_supplied_height_cex :
    yRangeOf (make_pano fNone "a" 2048 100 256 256 true 0) = some 1 ∧
    pyCeil (effectiveHeight 2048 100 true) 256 = 4 ∧ (1 : Int) ≠ 4 := by
  refine ⟨rfl, by decide, by decide⟩

/-- C1 (amended): for positive inputs, `columns = ceil(panoWidth /
tileWidth)` and `rows = ceil(panoHeight / tileHeight)` computed from the
*supplied* `panoHeight`; the `autoHeight` adjustment is applied after the
grid math and affects only the canvas height, which becomes
`effectiveHeight`. -/
theorem grid_plan_amended (f : String → Option Bitmap) (iid : String)
    (pw ph tw th : Int) (ah : Bool) (z : Int)
    (hpw : 0 < pw) (hph : 0 < ph) (htw : 0 < tw) (hth : 0 < th) :
    ∃ r, make_pano f iid pw ph tw th ah z = Except.ok r ∧
      r.x_range = pyCeil pw tw ∧
      r.y_range = pyCeil ph th ∧
      r.canvas.width = pw ∧
      r.canvas.height = effectiveHeight pw ph ah := by
  refine ⟨_, make_pano_ok f iid pw ph tw th ah z (by omega) (by omega) hpw.le
    (effectiveHeight_nonneg hpw.le hph.le ah), rfl, rfl, ?_, ?_⟩
  · exact assembleRun_width tw th _ _
  · exact assembleRun_height tw th _ _

/-- C1 (witness): the amended grid-plan theorem applied at
`panoWidth = 1024, panoHeight = 512`, tiles 256 by 256. -/
theorem grid_plan_amended_witness :
    (0 : Int) < 1024 ∧ (0 : Int) < 512 ∧ (0 : Int) < 256 ∧
    (∃ r, make_pano fNone "a" 1024 512 256 256 false 0 = Except.ok r ∧
      r.x_range = pyCeil 1024 256 ∧ r.y_range = pyCeil 512 256 ∧
      r.canvas.width = 1024 ∧ r.canvas.height = effectiveHeight 1024 512 false) :=
  ⟨by decide, by decide, by decide,
    grid_plan_amended fNone "a" 1024 512 256 256 false 0
      (by decide) (by decide) (by decide) (by decide)⟩

theorem make_pano_zero_tile (f : String → Option Bitmap) (iid : String)
    (pw ph tw th : Int) (ah : Bool) (z : Int) (h : tw = 0 ∨ th = 0) :
    make_pano f iid pw ph tw th ah z =
      Except.error PanoError.zeroDivisionError := by
  by_cases htw : tw = 0
  · simp only [make_pano, if_pos htw]
  · simp only [make_pano, if_neg htw, if_pos (h.resolve_left htw)]

/-- C2 (counterexample): at the non-positive dimension input
`tileWidth = 0` (all other dimensions positive) the call fails with
`ZeroDivisionError`, not with `InvalidDimension`. -/
theorem invalid_dimension_cex :
    make_pano fNone "a" 512 512 0 256 false 0 =
      Except.error PanoError.zeroDivisionError ∧
    PanoError.zeroDivisionError ≠ PanoError.invalidDimension :=
  ⟨rfl, by decide⟩

/-- C2 (amended): `make_pano` performs no dimension validation and never
produces `InvalidDimension`; a zero tile dimension instead raises
`ZeroDivisionError` during the grid arithmetic, before any tile is
fetched — the result is then independent of the fetch environment. -/
theorem no_dimension_validation (f : String → Option Bitmap) (iid : String)
    (pw ph tw th : Int) (ah : Bool) (z : Int) :
    make_pano f iid pw ph tw th ah z ≠
      Except.error PanoError.invalidDimension ∧
    ((tw = 0 ∨ th = 0) →
      make_pano f iid pw ph tw th ah z =
        Except.error PanoError.zeroDivisionError ∧
      ∀ g, make_pano f iid pw ph tw th ah z =
        make_pano g iid pw ph tw th ah z) := by
  constructor
  · by_cases htw : tw = 0
    · simp [make_pano, htw]
    · by_cases hth : th = 0
      · simp [make_pano, htw, hth]
      · by_cases hbad : pw < 0 ∨ effectiveHeight pw ph ah < 0
        · simp [make_pano, htw, hth, hbad]
        · simp [make_pano, htw, hth, hbad]
  · intro h
    refine ⟨make_pano_zero_tile f iid pw ph tw th ah z h, fun g => ?_⟩
    rw [make_pano_zero_tile f iid pw ph tw th ah z h,
      make_pano_zero_tile g iid pw ph tw th ah z h]

/-- C2 (witness): the amended theorem applied at `tileWidth = 0`. -/
theorem no_dimension_validation_witness :
    make_pano fNone "a" 512 512 0 256 false 0 ≠
      Except.error PanoError.invalidDimension ∧
    make_pano fNone "a" 512 512 0 256 false 0 =
      Except.error PanoError.zeroDivisionError :=
  ⟨(no_dimension_validation fNone "a" 512 512 0 256 false 0).1,
   ((no_dimension_validation fNone "a" 512 512 0 256 false 0).2
     (Or.inl rfl)).1⟩

/-- C6: the autoHeight rule: with `autoHeight = true` and a supplied
height different from `panoWidth / 2` (truncating division) the effective
height becomes `panoWidth / 2`; with the heights equal it is unchanged;
with `autoHeight = false` the supplied height is never changed; concretely
`autoHeight = true, panoWidth = 2048, panoHeight = 999` gives `1024`.  The
canvas of every run is allocated at exactly that effective height. -/
theorem auto_height_rule (pw ph : Int) (hpw : 0 < pw) (hph : 0 < ph) :
    (ph ≠ pyHalf pw → effectiveHeight pw ph true = pyHalf pw) ∧
    (ph = pyHalf pw → effectiveHeight pw ph true = ph) ∧
    effectiveHeight pw ph false = ph ∧
    effectiveHeight 2048 999 true = 1024 ∧
    (∀ f iid tw th z ah, 0 < tw → 0 < th →
      ∃ r, make_pano f iid pw ph tw th ah z = Except.ok r ∧
        r.canvas.height = effectiveHeight pw ph ah) := by
  refine ⟨?_, ?_, ?_, by decide, ?_⟩
  · intro h; simp [effectiveHeight, h]
  · intro h; simp [effectiveHeight, h]
  · simp [effectiveHeight]
  · intro f iid tw th z ah htw hth
    exact ⟨_, make_pano_ok f iid pw ph tw th ah z (by omega) (by omega)
      hpw.le (effectiveHeight_nonneg hpw.le hph.le ah),
      assembleRun_height tw th _ _⟩

/-- C6 (witness): the autoHeight rule applied at the spec's concrete
scenario `panoWidth = 2048, panoHeight = 999`. -/
theorem auto_height_rule_witness :
    (0 : Int) < 2048 ∧ (0 : Int) < 999 ∧
    effectiveHeight 2048 999 true = 1024 :=
  ⟨by decide, by decide,
    (auto_height_rule 2048 999 (by decide) (by decide)).2.2.2.1⟩

/-- C9: a zero tile dimension makes the grid arithmetic at the top of
`make_pano` divide by zero: the call raises `ZeroDivisionError` — a
division error, not a dimension-validation error — and does so before any
canvas allocation or network dispatch, so the outcome is independent of
the fetch environment. -/
theorem zero_tile_division (f g : String → Option Bitmap) (iid : String)
    (pw ph tw th : Int) (ah : Bool) (z : Int) (h : tw = 0 ∨ th = 0) :
    make_pano f iid pw ph tw th ah z =
      Except.error PanoError.zeroDivisionError ∧
    PanoError.zeroDivisionError ≠ PanoError.invalidDimension ∧
    make_pano f iid pw ph tw th ah z = make_pano g iid pw ph tw th ah z := by
  refine ⟨make_pano_zero_tile f iid pw ph tw th ah z h, by decide, ?_⟩
  rw [make_pano_zero_tile f iid pw ph tw th ah z h,
    make_pano_zero_tile g iid pw ph tw th ah z h]

/-- C9 (witness): the division-by-zero theorem applied at
`tileHeight = 0` with positive remaining dimensions. -/
theorem zero_tile_division_witness :
    ((256 : Int) = 0 ∨ (0 : Int) = 0) ∧
    make_pano fNone "b" 512 512 256 0 false 0 =
      Except.error PanoError.zeroDivisionError :=
  ⟨Or.inr rfl,
    (zero_tile_division fNone fGrey "b" 512 512 256 0 false 0 (Or.inr rfl)).1⟩

theorem coordList_length (xr yr : Nat) : (coordList xr yr).length = xr * yr := by
  simp [coordList, Function.comp_def, mul_comm]

theorem mem_coordList {xr yr : Nat} {c : Nat × Nat} :
    c ∈ coordList xr yr ↔ c.1 < xr ∧ c.2 < yr := by
  obtain ⟨a, b⟩ := c
  simp [coordList]

theorem coordList_nodup (xr yr : Nat) : (coordList xr yr).Nodup := by
  rw [coordList, List.nodup_flatMap]
  refine ⟨fun x hx => ?_, ?_⟩
  · exact (List.nodup_range yr).map (fun y₁ y₂ h => by simpa using h)
  · refine List.Pairwise.imp ?_ (List.pairwise_lt_range xr)
    intro x₁ x₂ hlt c hc₁ hc₂
    simp only [List.mem_map, List.mem_range] at hc₁ hc₂
    obtain ⟨y₁, -, rfl⟩ := hc₁
    obtain ⟨y₂, -, h⟩ := hc₂
    exact absurd (congrArg Prod.fst h).symm (by omega)

/-- C4: the outcome sequence has exactly `columns * rows` members, in
bijection with the coordinate set; its order is the fixed task-creation
order (`asyncio.gather` preserves it), so entry `i` belongs to coordinate
`coords[i]` and equals the fetch of that coordinate's URL, independent of
completion timing. -/
theorem outcome_bijection (f : String → Option Bitmap) (iid : String)
    (pw ph tw th : Int) (ah : Bool) (z : Int)
    (hpw : 0 < pw) (hph : 0 < ph) (htw : 0 < tw) (hth : 0 < th) :
    ∃ r, make_pano f iid pw ph tw th ah z = Except.ok r ∧
      r.coords = gridCoords pw ph tw th ∧
      r.urls = r.coords.map (fun c => tile_url iid z c.1 c.2) ∧
      r.results = r.urls.map f ∧
      r.results.length = r.coords.length ∧
      (r.coords.length : Int) = r.total_tiles ∧
      r.total_tiles = r.x_range * r.y_range ∧
      r.coords.Nodup ∧
      (∀ c : Nat × Nat,
        c ∈ r.coords ↔ ((c.1 : Int) < r.x_range ∧ (c.2 : Int) < r.y_range)) ∧
      r.results = r.coords.map (fun c => f (tile_url iid z c.1 c.2)) := by
  have hxr := pyCeil_pos hpw htw
  have hyr := pyCeil_pos hph hth
  refine ⟨_, make_pano_ok f iid pw ph tw th ah z (by omega) (by omega) hpw.le
    (effectiveHeight_nonneg hpw.le hph.le ah), rfl, rfl, rfl, ?_, ?_, rfl,
    coordList_nodup _ _, ?_, ?_⟩
  · simp [gridUrls]
  · rw [gridCoords, coordList_length]
    push_cast
    rw [Int.toNat_of_nonneg hxr.le, Int.toNat_of_nonneg hyr.le]
  · intro c
    rw [gridCoords, mem_coordList, Int.lt_toNat, Int.lt_toNat]
  · simp [gridUrls, Function.comp_def]

/-- C4 (witness): the bijection theorem applied at the spec's concrete
scenario `panoWidth = 1024, panoHeight = 512`, tiles 256 by 256. -/
theorem outcome_bijection_witness :
    (0 : Int) < 1024 ∧ (0 : Int) < 512 ∧ (0 : Int) < 256 ∧
    (∃ r, make_pano fGrey "a" 1024 512 256 256 false 0 = Except.ok r ∧
      r.coords = gridCoords 1024 512 256 256 ∧
      r.urls = r.coords.map (fun c => tile_url "a" 0 c.1 c.2) ∧
      r.results = r.urls.map fGrey ∧
      r.results.length = r.coords.length ∧
      (r.coords.length : Int) = r.total_tiles ∧
      r.total_tiles = r.x_range * r.y_range ∧
      r.coords.Nodup ∧
      (∀ c : Nat × Nat,
        c ∈ r.coords ↔ ((c.1 : Int) < r.x_range ∧ (c.2 : Int) < r.y_range)) ∧
      r.results = r.coords.map (fun c => fGrey (tile_url "a" 0 c.1 c.2))) :=
  ⟨by decide, by decide, by decide,
    outcome_bijection fGrey "a" 1024 512 256 256 false 0
      (by decide) (by decide) (by decide) (by decide)⟩

/-- C3: per-tile failures are isolated.  Every outcome is its own
coordinate's fetch result and nothing else (`results = urls.map f`
pointwise, so no outcome influences another), the operation returns
successfully for every fetch environment, and even in the environment in
which every tile fails the run still yields the full-size canvas, after
which line 68 writes the output file. -/
theorem failure_isolation (f : String → Option Bitmap) (iid : String)
    (pw ph tw th : Int) (ah : Bool) (z : Int)
    (hpw : 0 < pw) (hph : 0 < ph) (htw : 0 < tw) (hth : 0 < th) :
    (∃ r, make_pano f iid pw ph tw th ah z = Except.ok r ∧
      r.results = r.urls.map f ∧
      r.canvas.width = pw ∧ r.canvas.height = effectiveHeight pw ph ah) ∧
    (∃ r0, make_pano fNone iid pw ph tw th ah z = Except.ok r0 ∧
      (∀ o ∈ r0.results, o = none) ∧
      (r0.results.length : Int) = r0.total_tiles ∧
      r0.canvas.width = pw ∧ r0.canvas.height = effectiveHeight pw ph ah) := by
  have hxr := pyCeil_pos hpw htw
  have hyr := pyCeil_pos hph hth
  constructor
  · exact ⟨_, make_pano_ok f iid pw ph tw th ah z (by omega) (by omega) hpw.le
      (effectiveHeight_nonneg hpw.le hph.le ah), rfl,
      assembleRun_width tw th _ _, assembleRun_height tw th _ _⟩
  · refine ⟨_, make_pano_ok fNone iid pw ph tw th ah z (by omega) (by omega)
      hpw.le (effectiveHeight_nonneg hpw.le hph.le ah), ?_, ?_,
      assembleRun_width tw th _ _, assembleRun_height tw th _ _⟩
    · intro o ho
      simp only [List.mem_map] at ho
      obtain ⟨u, -, rfl⟩ := ho
      rfl
    · simp only [List.length_map, gridUrls, gridCoords, coordList_length]
      push_cast
      rw [Int.toNat_of_nonneg hxr.le, Int.toNat_of_nonneg hyr.le]

/-- C3 (witness): failure isolation applied at the concrete scenario of
the spec with a mixed environment failing on the `(0, 0)` tile only. -/
theorem failure_isolation_witness :
    (0 : Int) < 1024 ∧ (0 : Int) < 512 ∧ (0 : Int) < 256 ∧
    ((∃ r, make_pano
        (fun u => if u = tile_url "a" 0 0 0 then none else fGrey u)
        "a" 1024 512 256 256 false 0 = Except.ok r ∧
      r.results = r.urls.map
        (fun u => if u = tile_url "a" 0 0 0 then none else fGrey u) ∧
      r.canvas.width = 1024 ∧
      r.canvas.height = effectiveHeight 1024 512 false) ∧
    (∃ r0, make_pano fNone "a" 1024 512 256 256 false 0 = Except.ok r0 ∧
      (∀ o ∈ r0.results, o = none) ∧
      (r0.results.length : Int) = r0.total_tiles ∧
      r0.canvas.width = 1024 ∧
      r0.canvas.height = effectiveHeight 1024 512 false)) :=
  ⟨by decide, by decide, by decide,
    failure_isolation (fun u => if u = tile_url "a" 0 0 0 then none else fGrey u)
      "a" 1024 512 256 256 false 0 (by decide) (by decide) (by decide) (by decide)⟩

theorem lastHit_append (tw th X Y : Int)
    (l : List ((Nat × Nat) × Option Bitmap)) (a : (Nat × Nat) × Option Bitmap) :
    lastHit tw th X Y (l ++ [a]) =
      if inBoxB tw th a X Y then a.2.map (fun t => (a.1, t))
      else lastHit tw th X Y l := by
  unfold lastHit
  rw [List.foldl_append, List.foldl_cons, List.foldl_nil]

/-- In-bounds pixel value of the assembled canvas: the pixel of the last
success tile pasted over the point, or the untouched initial value when
no success tile covers it. -/
theorem assembleRun_pix (tw th : Int) (c0 : Bitmap)
    (items : List ((Nat × Nat) × Option Bitmap)) (X Y : Int)
    (hX0 : 0 ≤ X) (hXw : X < c0.width) (hY0 : 0 ≤ Y) (hYh : Y < c0.height) :
    ((assembleRun tw th c0 items).1).pix X Y =
      (match lastHit tw th X Y items with
       | some ct => ct.2.pix (X - (ct.1.1 : Int) * tw) (Y - (ct.1.2 : Int) * th)
       | none => c0.pix X Y) := by
  induction items using List.reverseRecOn with
  | nil => rfl
  | append_singleton l a ih =>
      rw [assembleRun, List.foldl_append, List.foldl_cons, List.foldl_nil,
        lastHit_append]
      have hwl : ((l.foldl (assembleStep tw th) (c0, 0, [])).1).width = c0.width :=
        assembleRun_foldl_width tw th l _
      have hhl : ((l.foldl (assembleStep tw th) (c0, 0, [])).1).height = c0.height :=
        assembleRun_foldl_height tw th l _
      rcases ha : a.2 with _ | t
      · have hb : ¬(inBoxB tw th a X Y = true) := by simp [inBoxB, ha]
        rw [if_neg hb]
        have hstep : assembleStep tw th (l.foldl (assembleStep tw th) (c0, 0, [])) a =
            l.foldl (assembleStep tw th) (c0, 0, []) := by
          simp [assembleStep, ha]
        rw [hstep]
        exact ih
      · by_cases hb : inBoxB tw th a X Y = true
        · rw [if_pos hb]
          have hb' := hb
          simp only [inBoxB, ha, Bool.and_eq_true, decide_eq_true_eq] at hb'
          have hstep : (assembleStep tw th (l.foldl (assembleStep tw th) (c0, 0, [])) a).1 =
              paste ((l.foldl (assembleStep tw th) (c0, 0, [])).1) t
                ((a.1.1 : Int) * tw) ((a.1.2 : Int) * th) := by
            simp [assembleStep, ha]
          rw [hstep]
          simp only [paste, Option.map_some']
          rw [if_pos ⟨hX0, by rwa [hwl], hY0, by rwa [hhl],
            hb'.1.1.1, hb'.1.1.2, hb'.1.2, hb'.2⟩]
        · rw [if_neg hb]
          have hstep : (assembleStep tw th (l.foldl (assembleStep tw th) (c0, 0, [])) a).1 =
              paste ((l.foldl (assembleStep tw th) (c0, 0, [])).1) t
                ((a.1.1 : Int) * tw) ((a.1.2 : Int) * th) := by
            simp [assembleStep, ha]
          rw [hstep]
          simp only [paste]
          rw [if_neg]
          · exact ih
          · intro hcon
            apply hb
            simp only [inBoxB, ha, Bool.and_eq_true, decide_eq_true_eq]
            exact ⟨⟨⟨hcon.2.2.2.2.1, hcon.2.2.2.2.2.1⟩,
              hcon.2.2.2.2.2.2.1⟩, hcon.2.2.2.2.2.2.2⟩

/-- A pixel covered by no success tile is never written: it keeps the
initial canvas value (no bounds assumption needed). -/
theorem assembleRun_pix_of_no_cover (tw th : Int) (c0 : Bitmap)
    (items : List ((Nat × Nat) × Option Bitmap)) (X Y : Int)
    (h : ∀ it ∈ items, inBoxB tw th it X Y = false) :
    ((assembleRun tw th c0 items).1).pix X Y = c0.pix X Y := by
  induction items using List.reverseRecOn with
  | nil => rfl
  | append_singleton l a ih =>
      rw [assembleRun, List.foldl_append, List.foldl_cons, List.foldl_nil]
      have hfa : inBoxB tw th a X Y = false := h a (by simp)
      rcases ha : a.2 with _ | t
      · have hstep : assembleStep tw th (l.foldl (assembleStep tw th) (c0, 0, [])) a =
            l.foldl (assembleStep tw th) (c0, 0, []) := by
          simp [assembleStep, ha]
        rw [hstep]
        exact ih (fun it hit => h it (by simp [hit]))
      · have hstep : (assembleStep tw th (l.foldl (assembleStep tw th) (c0, 0, [])) a).1 =
            paste ((l.foldl (assembleStep tw th) (c0, 0, [])).1) t
              ((a.1.1 : Int) * tw) ((a.1.2 : Int) * th) := by
          simp [assembleStep, ha]
        rw [hstep]
        simp only [paste]
        rw [if_neg]
        · exact ih (fun it hit => h it (by simp [hit]))
        · intro hcon
          simp only [inBoxB, ha, Bool.and_eq_true, decide_eq_true_eq] at hfa
          simp only [Bool.and_eq_false_iff, decide_eq_false_iff_not] at hfa
          rcases hfa with ((h1 | h2) | h3) | h4
          · exact h1 hcon.2.2.2.2.1
          · exact h2 hcon.2.2.2.2.2.1
          · exact h3 hcon.2.2.2.2.2.2.1
          · exact h4 hcon.2.2.2.2.2.2.2

/-- A `None` (failed) outcome leaves the entire assembly state unchanged:
the loop over all items equals the loop over the successful ones only. -/
theorem foldl_assembleStep_filter (tw th : Int)
    (items : List ((Nat × Nat) × Option Bitmap)) :
    ∀ acc, (items.filter (fun it => it.2.isSome)).foldl (assembleStep tw th) acc =
      items.foldl (assembleStep tw th) acc := by
  induction items with
  | nil => intro acc; rfl
  | cons it rest ih =>
      intro acc
      rcases ha : it.2 with _ | t
      · rw [List.filter_cons, List.foldl_cons]
        have hstep : assembleStep tw th acc it = acc := by simp [assembleStep, ha]
        rw [hstep]
        simp only [ha, Option.isSome_none, Bool.false_eq_true, if_false]
        exact ih acc
      · rw [List.filter_cons]
        simp only [ha, Option.isSome_some, if_true]
        rw [List.foldl_cons, List.foldl_cons]
        exact ih _

theorem assembleRun_filter (tw th : Int) (c0 : Bitmap)
    (items : List ((Nat × Nat) × Option Bitmap)) :
    assembleRun tw th c0 (items.filter (fun it => it.2.isSome)) =
      assembleRun tw th c0 items :=
  foldl_assembleStep_filter tw th items (c0, 0, [])

/-- The progress-bar trace of the assembly loop: `bar.update` is called
once per successful tile only, with the values `v+1, v+2, …`. -/
theorem foldl_assembleStep_bar (tw th : Int)
    (items : List ((Nat × Nat) × Option Bitmap)) :
    ∀ (c0 : Bitmap) (v : Nat) (us : List Nat),
      (items.foldl (assembleStep tw th) (c0, v, us)).2.1 =
        v + items.countP (fun it => it.2.isSome) ∧
      (items.foldl (assembleStep tw th) (c0, v, us)).2.2 =
        us ++ List.range' (v + 1) (items.countP (fun it => it.2.isSome)) := by
  induction items with
  | nil => intro c0 v us; simp
  | cons it rest ih =>
      intro c0 v us
      rcases ha : it.2 with _ | t
      · have hstep : assembleStep tw th (c0, v, us) it = (c0, v, us) := by
          simp [assembleStep, ha]
        rw [List.foldl_cons, hstep, List.countP_cons]
        simp only [ha, Option.isSome_none, Bool.false_eq_true, if_false,
          Nat.add_zero]
        exact ih c0 v us
      · have hstep : assembleStep tw th (c0, v, us) it =
            (paste c0 t ((it.1.1 : Int) * tw) ((it.1.2 : Int) * th),
             v + 1, us ++ [v + 1]) := by
          simp [assembleStep, ha]
        rw [List.foldl_cons, hstep, List.countP_cons]
        simp only [ha, Option.isSome_some, if_true]
        obtain ⟨ih1, ih2⟩ := ih (paste c0 t ((it.1.1 : Int) * tw)
          ((it.1.2 : Int) * th)) (v + 1) (us ++ [v + 1])
        refine ⟨by rw [ih1]; omega, ?_⟩
        rw [ih2, List.range'_succ, List.append_assoc]
        rfl

theorem countP_zip_snd {α β : Type} (p : β → Bool) :
    ∀ (l₁ : List α) (l₂ : List β), l₁.length = l₂.length →
      (l₁.zip l₂).countP (fun it => p it.2) = l₂.countP p := by
  intro l₁
  induction l₁ with
  | nil =>
      intro l₂ h
      cases l₂
      · rfl
      · simp at h
  | cons a t₁ ih =>
      intro l₂ h
      cases l₂ with
      | nil => simp at h
      | cons b t₂ =>
          rw [List.zip_cons_cons, List.countP_cons, List.countP_cons,
            ih t₂ (by simpa using h)]

/-- C7 (counterexample): on a 1-by-1 grid whose single fetch fails, no
progress notification is emitted at all: the notification is not emitted
once per outcome, and the final count 0 never reaches
`columns * rows = 1`. -/
theorem progress_per_outcome_cex :
    totalTilesOf (make_pano fNone "a" 256 256 256 256 false 0) = some 1 ∧
    barOf (make_pano fNone "a" 256 256 256 256 false 0) = some [] ∧
    ([] : List Nat).length ≠ 1 :=
  ⟨rfl, rfl, by decide⟩

/-- C7 (amended): the notification is emitted exactly once per *Success*
outcome (a failed fetch emits nothing): the trace of values passed to
`bar.update` is `1, 2, …, k` where `k` is the number of successful tiles,
hence strictly increasing, and it reaches `columns * rows` exactly when
every tile succeeded. -/
theorem progress_per_success (f : String → Option Bitmap) (iid : String)
    (pw ph tw th : Int) (ah : Bool) (z : Int)
    (hpw : 0 < pw) (hph : 0 < ph) (htw : 0 < tw) (hth : 0 < th) :
    ∃ r, make_pano f iid pw ph tw th ah z = Except.ok r ∧
      r.bar_updates = List.range' 1 (r.results.countP (fun o => o.isSome)) ∧
      r.bar_updates.length = r.results.countP (fun o => o.isSome) ∧
      List.Pairwise (fun v w => v < w) r.bar_updates ∧
      ((∀ o ∈ r.results, o.isSome = true) →
        (r.bar_updates.length : Int) = r.total_tiles) := by
  have hxr := pyCeil_pos hpw htw
  have hyr := pyCeil_pos hph hth
  refine ⟨_, make_pano_ok f iid pw ph tw th ah z (by omega) (by omega) hpw.le
    (effectiveHeight_nonneg hpw.le hph.le ah), ?_⟩
  have hlen : (gridCoords pw ph tw th).length =
      ((gridUrls iid z pw ph tw th).map f).length := by
    simp [gridUrls]
  have hbar := foldl_assembleStep_bar tw th (gridItems f iid z pw ph tw th)
    (newCanvas pw (effectiveHeight pw ph ah)) 0 []
  have hcount : (gridItems f iid z pw ph tw th).countP (fun it => it.2.isSome) =
      ((gridUrls iid z pw ph tw th).map f).countP (fun o => o.isSome) :=
    countP_zip_snd (fun o => o.isSome) _ _ hlen
  have htrace : (assembleRun tw th (newCanvas pw (effectiveHeight pw ph ah))
      (gridItems f iid z pw ph tw th)).2.2 =
      List.range' 1 (((gridUrls iid z pw ph tw th).map f).countP
        (fun o => o.isSome)) := by
    rw [assembleRun, hbar.2, hcount, List.nil_append]
  refine ⟨htrace, ?_, ?_, ?_⟩
  · rw [htrace, List.length_range']
  · rw [htrace]
    exact List.pairwise_lt_range' 1 _ 1
  · intro hall
    rw [htrace, List.length_range',
      List.countP_eq_length.mpr (fun o ho => hall o ho), List.length_map,
      gridUrls, List.length_map, gridCoords, coordList_length]
    push_cast
    rw [Int.toNat_of_nonneg hxr.le, Int.toNat_of_nonneg hyr.le]

/-- C7 (witness): the amended progress theorem applied to the 4-by-2
grid with every tile succeeding. -/
theorem progress_per_success_witness :
    (0 : Int) < 1024 ∧ (0 : Int) < 512 ∧ (0 : Int) < 256 ∧
    (∃ r, make_pano fGrey "a" 1024 512 256 256 false 0 = Except.ok r ∧
      r.bar_updates = List.range' 1 (r.results.countP (fun o => o.isSome)) ∧
      r.bar_updates.length = r.results.countP (fun o => o.isSome) ∧
      List.Pairwise (fun v w => v < w) r.bar_updates ∧
      ((∀ o ∈ r.results, o.isSome = true) →
        (r.bar_updates.length : Int) = r.total_tiles)) :=
  ⟨by decide, by decide, by decide,
    progress_per_success fGrey "a" 1024 512 256 256 false 0
      (by decide) (by decide) (by decide) (by decide)⟩

theorem paste_congr {c c' t t' : Bitmap} (hc : BitmapEq c c')
    (ht : BitmapEq t t') (ox oy : Int) :
    BitmapEq (paste c t ox oy) (paste c' t' ox oy) := by
  obtain ⟨hcw, hch, hcp⟩ := hc
  obtain ⟨htw', hth', htp⟩ := ht
  refine ⟨hcw, hch, fun X Y => ?_⟩
  simp only [paste]
  rw [← hcw, ← hch, ← htw', ← hth']
  by_cases h : 0 ≤ X ∧ X < c.width ∧ 0 ≤ Y ∧ Y < c.height ∧
      ox ≤ X ∧ X < ox + t.width ∧ oy ≤ Y ∧ Y < oy + t.height
  · rw [if_pos h, if_pos h, htp]
  · rw [if_neg h, if_neg h, hcp]

/-- Assembly respects extensional equality of its inputs: two runs over
equal initial canvases and equal outcome lists produce extensionally
equal canvases and identical progress traces. -/
theorem foldl_assembleStep_congr (tw th : Int)
    {items items' : List ((Nat × Nat) × Option Bitmap)}
    (hi : List.Forall₂ ItemEq items items') :
    ∀ (acc acc' : Bitmap × Nat × List Nat),
      BitmapEq acc.1 acc'.1 → acc.2 = acc'.2 →
      BitmapEq ((items.foldl (assembleStep tw th) acc).1)
          ((items'.foldl (assembleStep tw th) acc').1) ∧
        (items.foldl (assembleStep tw th) acc).2 =
          (items'.foldl (assembleStep tw th) acc').2 := by
  induction hi with
  | nil => exact fun acc acc' h1 h2 => ⟨h1, h2⟩
  | cons hab htl ih =>
      rename_i a b l₁ l₂
      intro acc acc' h1 h2
      rw [List.foldl_cons, List.foldl_cons]
      obtain ⟨hcoord, hout⟩ := hab
      rcases ha : a.2 with _ | ta <;> rcases hbq : b.2 with _ | tb
      · have hsa : assembleStep tw th acc a = acc := by simp [assembleStep, ha]
        have hsb : assembleStep tw th acc' b = acc' := by
          simp [assembleStep, hbq]
        rw [hsa, hsb]
        exact ih acc acc' h1 h2
      · rw [ha, hbq] at hout
        simp [OutcomeEq] at hout
      · rw [ha, hbq] at hout
        simp [OutcomeEq] at hout
      · rw [ha, hbq] at hout
        have hsa : assembleStep tw th acc a =
            (paste acc.1 ta ((a.1.1 : Int) * tw) ((a.1.2 : Int) * th),
             acc.2.1 + 1, acc.2.2 ++ [acc.2.1 + 1]) := by
          simp [assembleStep, ha]
        have hsb : assembleStep tw th acc' b =
            (paste acc'.1 tb ((b.1.1 : Int) * tw) ((b.1.2 : Int) * th),
             acc'.2.1 + 1, acc'.2.2 ++ [acc'.2.1 + 1]) := by
          simp [assembleStep, hbq]
        rw [hsa, hsb, hcoord, h2]
        exact ih _ _ (paste_congr h1 hout _ _) rfl

/-- C8: assembly is deterministic and idempotent: running the assembly
fold twice over the same geometry, the same initial canvas (up to pixel
equality) and the same outcome set (same coordinates, extensionally equal
bitmaps, same failures) yields bit-identical canvases and identical
progress traces. -/
theorem assembly_idempotent (tw th : Int) (c0 c0' : Bitmap)
    (items items' : List ((Nat × Nat) × Option Bitmap))
    (hc : BitmapEq c0 c0') (hi : List.Forall₂ ItemEq items items') :
    BitmapEq (assembleRun tw th c0 items).1
        (assembleRun tw th c0' items').1 ∧
      (assembleRun tw th c0 items).2 = (assembleRun tw th c0' items').2 :=
  foldl_assembleStep_congr tw th hi (c0, 0, []) (c0', 0, []) hc rfl

/-- C8 (witness): determinism applied to the concrete one-success,
one-failure outcome set. -/
theorem assembly_idempotent_witness :
    BitmapEq (newCanvas 4 4) (newCanvas 4 4) ∧
    (BitmapEq (assembleRun 2 2 (newCanvas 4 4) demoItems).1
        (assembleRun 2 2 (newCanvas 4 4) demoItems).1 ∧
      (assembleRun 2 2 (newCanvas 4 4) demoItems).2 =
        (assembleRun 2 2 (newCanvas 4 4) demoItems).2) := by
  have hc : BitmapEq (newCanvas 4 4) (newCanvas 4 4) :=
    ⟨rfl, rfl, fun _ _ => rfl⟩
  have hi : List.Forall₂ ItemEq demoItems demoItems := by
    refine List.Forall₂.cons ⟨rfl, ?_⟩
      (List.Forall₂.cons ⟨rfl, ?_⟩ List.Forall₂.nil)
    · exact ⟨rfl, rfl, fun _ _ => rfl⟩
    · exact trivial
  exact ⟨hc, assembly_idempotent 2 2 _ _ demoItems demoItems hc hi⟩

/-- C5: the assembler pastes each Success bitmap at pixel offset
`(column * tileWidth, row * tileHeight)` clipped to the canvas bounds and
never raises (the canvas dimensions are unchanged by every paste); each
Failure outcome takes no action (the loop over all outcomes equals the
loop over the successful outcomes only); and every in-bounds pixel equals
the pixel of the last success tile pasted over it, or the default fill
where no success tile covers it. -/
theorem assembler_paste_semantics (f : String → Option Bitmap) (iid : String)
    (pw ph tw th : Int) (ah : Bool) (z : Int)
    (hpw : 0 < pw) (hph : 0 < ph) (htw : 0 < tw) (hth : 0 < th) :
    ∃ r, make_pano f iid pw ph tw th ah z = Except.ok r ∧
      r.canvas.width = pw ∧
      r.canvas.height = effectiveHeight pw ph ah ∧
      r.canvas = (assembleRun tw th (newCanvas pw (effectiveHeight pw ph ah))
        ((r.coords.zip r.results).filter (fun it => it.2.isSome))).1 ∧
      (∀ X Y : Int, 0 ≤ X → X < pw → 0 ≤ Y → Y < effectiveHeight pw ph ah →
        r.canvas.pix X Y =
          (match lastHit tw th X Y (r.coords.zip r.results) with
           | some ct => ct.2.pix (X - (ct.1.1 : Int) * tw)
               (Y - (ct.1.2 : Int) * th)
           | none => RGB.black)) := by
  refine ⟨_, make_pano_ok f iid pw ph tw th ah z (by omega) (by omega) hpw.le
    (effectiveHeight_nonneg hpw.le hph.le ah),
    assembleRun_width tw th _ _, assembleRun_height tw th _ _, ?_, ?_⟩
  · exact congrArg Prod.fst (assembleRun_filter tw th
      (newCanvas pw (effectiveHeight pw ph ah))
      (gridItems f iid z pw ph tw th)).symm
  · intro X Y h1 h2 h3 h4
    exact assembleRun_pix tw th (newCanvas pw (effectiveHeight pw ph ah))
      (gridItems f iid z pw ph tw th) X Y h1 h2 h3 h4

/-- C5 (witness): the assembler semantics applied at the spec's concrete
4-by-2 scenario with every tile succeeding. -/
theorem assembler_paste_semantics_witness :
    (0 : Int) < 1024 ∧ (0 : Int) < 512 ∧ (0 : Int) < 256 ∧
    (∃ r, make_pano fGrey "a" 1024 512 256 256 false 0 = Except.ok r ∧
      r.canvas.width = 1024 ∧
      r.canvas.height = effectiveHeight 1024 512 false ∧
      r.canvas = (assembleRun 256 256
        (newCanvas 1024 (effectiveHeight 1024 512 false))
        ((r.coords.zip r.results).filter (fun it => it.2.isSome))).1 ∧
      (∀ X Y : Int, 0 ≤ X → X < 1024 → 0 ≤ Y →
          Y < effectiveHeight 1024 512 false →
        r.canvas.pix X Y =
          (match lastHit 256 256 X Y (r.coords.zip r.results) with
           | some ct => ct.2.pix (X - (ct.1.1 : Int) * 256)
               (Y - (ct.1.2 : Int) * 256)
           | none => RGB.black))) :=
  ⟨by decide, by decide, by decide,
    assembler_paste_semantics fGrey "a" 1024 512 256 256 false 0
      (by decide) (by decide) (by decide) (by decide)⟩

/-- C10: the canvas default fill is exactly RGB black `(0, 0, 0)`: the
canvas is allocated with every pixel black, and in the assembled result
every pixel covered by no successfully pasted tile still equals black. -/
theorem default_fill_black (f : String → Option Bitmap) (iid : String)
    (pw ph tw th : Int) (ah : Bool) (z : Int)
    (hpw : 0 < pw) (hph : 0 < ph) (htw : 0 < tw) (hth : 0 < th) :
    (∀ X Y : Int,
      (newCanvas pw (effectiveHeight pw ph ah)).pix X Y = RGB.black) ∧
    RGB.black = ⟨0, 0, 0⟩ ∧
    (∃ r, make_pano f iid pw ph tw th ah z = Except.ok r ∧
      ∀ X Y : Int,
        (∀ it ∈ r.coords.zip r.results, inBoxB tw th it X Y = false) →
          r.canvas.pix X Y = RGB.black) := by
  refine ⟨fun _ _ => rfl, rfl, _, make_pano_ok f iid pw ph tw th ah z
    (by omega) (by omega) hpw.le
    (effectiveHeight_nonneg hpw.le hph.le ah), ?_⟩
  intro X Y h
  exact assembleRun_pix_of_no_cover tw th _ _ X Y h

/-- C10 (witness): the default-fill theorem applied at the all-failures
environment on the 4-by-2 grid. -/
theorem default_fill_black_witness :
    (0 : Int) < 1024 ∧ (0 : Int) < 512 ∧ (0 : Int) < 256 ∧
    ((∀ X Y : Int,
        (newCanvas 1024 (effectiveHeight 1024 512 false)).pix X Y =
          RGB.black) ∧
      RGB.black = ⟨0, 0, 0⟩ ∧
      (∃ r, make_pano fNone "a" 1024 512 256 256 false 0 = Except.ok r ∧
        ∀ X Y : Int,
          (∀ it ∈ r.coords.zip r.results,
            inBoxB 256 256 it X Y = false) →
            r.canvas.pix X Y = RGB.black)) :=
  ⟨by decide, by decide, by decide,
    default_fill_black fNone "a" 1024 512 256 256 false 0
      (by decide) (by decide) (by decide) (by decide)⟩

end YandexPano
